import Mathlib

/-
Verification of the saga / command-bus / mediator pattern repository.

Shallow embedding of three TypeScript source files:
  * the command/query bus slice (CommandBus.register / CommandBus.execute,
    InMemoryUserRepository backed by an array),
  * the saga slice (UserCreationSaga.addStep / UserCreationSaga.run),
  * the mediator slice (UserRepository over a Map, UserMediator.notify).

JavaScript `Map` objects are embedded as insertion-ordered association
lists with `mapSet` / `mapGet` / `mapDelete` mirroring `Map.set`,
`Map.get`, `Map.delete`. JavaScript thrown values are embedded as the
type `JSValue` (the sources only ever throw `new Error(message)`
objects, and rethrow handler failures unchanged). Asynchronous methods
are embedded as state-passing functions returning `Except` for the
promise outcome: `Except.ok ()` is a promise that resolves (`void`),
`Except.error e` is a promise rejected with the thrown value `e`.
-/

namespace Patterns

/-- JavaScript thrown value. The sources throw `new Error(message)` and
rethrow whatever a handler throws, unchanged. -/
inductive JSValue where
  | errObj (message : String)
deriving DecidableEq, Repr

/-- Embedding of the `Command` interface: a discriminator `type` plus the
kind-specific payload fields (embedded uniformly as a list of strings,
e.g. `CreateUserCommand` has payload `[name, email]`). -/
structure Command where
  type : String
  payload : List String
deriving DecidableEq, Repr

/-- Embedding of a saga step object `{ execute: Command; compensate?: Command }`. -/
structure Step where
  execute : Command
  compensate : Option Command
deriving DecidableEq, Repr

/-- JavaScript `Map.set`: overwrite the entry in place if the key is
present (insertion order of the key is kept), otherwise append. -/
def mapSet {α : Type} : List (String × α) → String → α → List (String × α)
  | [], k, v => [(k, v)]
  | (k1, v1) :: rest, k, v =>
      if k1 = k then (k, v) :: rest else (k1, v1) :: mapSet rest k v

/-- JavaScript `Map.get`: the value stored at the key, if any. -/
def mapGet {α : Type} : List (String × α) → String → Option α
  | [], _ => none
  | (k1, v1) :: rest, k => if k1 = k then some v1 else mapGet rest k

/-- JavaScript `Map.delete`: remove the entry at the key, if present. -/
def mapDelete {α : Type} : List (String × α) → String → List (String × α)
  | [], _ => []
  | (k1, v1) :: rest, k => if k1 = k then rest else (k1, v1) :: mapDelete rest k

/-- Embedding of a command handler. `handler.handle(command)` is a
stateful asynchronous call: it takes the world state `σ`, returns the
updated state and the promise outcome (resolved, or rejected with a
thrown `JSValue`). -/
def Handler (σ : Type) : Type := σ → Command → σ × Except JSValue Unit

/-- Embedding of the `CommandBus.handlers` field: a JavaScript `Map`
from command type to handler. -/
def CommandBus (σ : Type) : Type := List (String × Handler σ)

/-- Source `CommandBus.register`: `this.handlers.set(commandType, handler)`. -/
def CommandBus.register {σ : Type} (bus : CommandBus σ) (commandType : String)
    (handler : Handler σ) : CommandBus σ :=
  mapSet bus commandType handler

/-- Source `CommandBus.execute`: look up `command.type`; if absent throw
`new Error("No handler registered for " + command.type)`; otherwise
`await handler.handle(command)`, propagating whatever it throws. -/
def CommandBus.execute {σ : Type} (bus : CommandBus σ) (s : σ) (command : Command) :
    σ × Except JSValue Unit :=
  match mapGet bus command.type with
  | none => (s, Except.error (JSValue.errObj ("No handler registered for " ++ command.type)))
  | some handler => handler s command

/-- Embedding of the `UserCreationSaga` object state: its only field is
the `steps` array. -/
structure UserCreationSaga where
  steps : List Step
deriving DecidableEq, Repr

/-- Source `UserCreationSaga.addStep`: `this.steps.push({ execute, compensate })`
— an unconditional append, with no guard of any kind. -/
def UserCreationSaga.addStep (saga : UserCreationSaga) (execute : Command)
    (compensate : Option Command) : UserCreationSaga :=
  { saga with steps := saga.steps ++ [{ execute := execute, compensate := compensate }] }

/-- Result of the forward loop of `run`: final state, the sequence of
commands passed to `commandBus.execute` (the dispatch trace), the local
`executedSteps` array, and the caught error if some forward dispatch threw. -/
structure ForwardResult (σ ε : Type) where
  state : σ
  trace : List Command
  executed : List Step
  err : Option ε
deriving Repr

/-- Result of the compensation loop of `run`: final state, the commands
dispatched during the walk, and the error that escaped the loop if a
compensation dispatch threw (the source has no try/catch around it). -/
structure CompResult (σ ε : Type) where
  state : σ
  trace : List Command
  err : Option ε
deriving Repr

/-- Overall result of one `run` call: final state, full dispatch trace,
and the promise outcome (`Except.ok ()` = `run` resolves `void`,
`Except.error e` = `run` rejects with thrown value `e`). -/
structure RunResult (σ ε : Type) where
  state : σ
  trace : List Command
  result : Except ε Unit
deriving Repr

/-- Forward phase of `UserCreationSaga.run`: iterate the steps in order,
dispatching `step.execute` and pushing the step onto the local
`executedSteps`; on the first dispatch failure the loop stops and the
error is caught by the surrounding `catch`. `exec` is the dispatcher
(`commandBus.execute` in the source). -/
def forwardLoop {σ ε : Type} (exec : σ → Command → σ × Except ε Unit) :
    List Step → σ → ForwardResult σ ε
  | [], s => ⟨s, [], [], none⟩
  | step :: rest, s =>
      match exec s step.execute with
      | (s1, Except.ok _) =>
          let r := forwardLoop exec rest s1
          ⟨r.state, step.execute :: r.trace, step :: r.executed, r.err⟩
      | (s1, Except.error e) => ⟨s1, [step.execute], [], some e⟩

/-- Compensation phase of `UserCreationSaga.run` (the loop inside the
`catch` block): iterate the given list (the source passes the reversed
`executedSteps`), dispatching `step.compensate` when present. There is
no try/catch around the dispatch, so a compensation failure terminates
the loop and escapes. -/
def compLoop {σ ε : Type} (exec : σ → Command → σ × Except ε Unit) :
    List Step → σ → CompResult σ ε
  | [], s => ⟨s, [], none⟩
  | step :: rest, s =>
      match step.compensate with
      | none => compLoop exec rest s
      | some c =>
          match exec s c with
          | (s1, Except.ok _) =>
              let r := compLoop exec rest s1
              ⟨r.state, c :: r.trace, r.err⟩
          | (s1, Except.error e) => ⟨s1, [c], some e⟩

/-- Body of `UserCreationSaga.run` over the step list: run the forward
loop inside `try`; on a caught forward error, run the compensation loop
over `executedSteps.reverse()`. The caught forward error is only logged
(`console.error`) and is dropped from the returned promise: `run`
resolves `void` unless a compensation dispatch throws, in which case the
thrown compensation error escapes uncaught. -/
def runSteps {σ ε : Type} (exec : σ → Command → σ × Except ε Unit)
    (steps : List Step) (s : σ) : RunResult σ ε :=
  let f := forwardLoop exec steps s
  match f.err with
  | none => ⟨f.state, f.trace, Except.ok ()⟩
  | some _ =>
      let c := compLoop exec f.executed.reverse f.state
      match c.err with
      | none => ⟨c.state, f.trace ++ c.trace, Except.ok ()⟩
      | some e => ⟨c.state, f.trace ++ c.trace, Except.error e⟩

/-- Source `UserCreationSaga.run(commandBus)`, generalized over the
dispatcher `exec` (in the source, `commandBus.execute`). The method
reads `this.steps` and never writes any field of `this`, so the returned
object state is the input saga. -/
def UserCreationSaga.run {σ ε : Type} (saga : UserCreationSaga)
    (exec : σ → Command → σ × Except ε Unit) (s : σ) :
    UserCreationSaga × RunResult σ ε :=
  (saga, runSteps exec saga.steps s)

/-- Source `UserCreationSaga.run` with the dispatcher instantiated to an
actual `CommandBus`, exactly as in the source. -/
def UserCreationSaga.runBus {σ : Type} (saga : UserCreationSaga)
    (commandBus : CommandBus σ) (s : σ) : UserCreationSaga × RunResult σ JSValue :=
  saga.run (CommandBus.execute commandBus) s

/-- Shared `User` domain class (`{ name, email }`), identical in all
three source files. -/
structure User where
  name : String
  email : String
deriving DecidableEq, Repr

namespace Cqrs

/-- Source `InMemoryUserRepository.save` (command/query-bus file): an
unconditional `this.users.push(user)` on the backing array. -/
def InMemoryUserRepository.save (users : List User) (user : User) : List User :=
  users ++ [user]

/-- Source `InMemoryUserRepository.findByEmail` (command/query-bus
file): `this.users.find((u) => u.email === email) || null` — the first
(earliest-saved) matching user, or `null` embedded as `none`. -/
def InMemoryUserRepository.findByEmail (users : List User) (email : String) : Option User :=
  users.find? (fun u => u.email = email)

end Cqrs

namespace Mediator

/-- Observable effect of `NotificationService`: which email was sent to
which address (`sendWelcomeEmail` / `sendAccountClosureEmail`). -/
inductive EmailMsg where
  | welcome (email : String)
  | accountClosure (email : String)
deriving DecidableEq, Repr

/-- Source `UserMediator.notify(sender, event)`: on "UserCreated" send a
welcome email to the sender's address, on "UserDeleted" send an account
closure email, otherwise do nothing. The emitted emails are the
observable effect. -/
def UserMediator.notify (sender : User) (event : String) : List EmailMsg :=
  if event = "UserCreated" then [EmailMsg.welcome sender.email]
  else if event = "UserDeleted" then [EmailMsg.accountClosure sender.email]
  else []

/-- Source `UserRepository.save` (mediator file): `this.users.set(user.email, user)`
then `this.mediator.notify(user, "UserCreated")`. Returns the new map
state and the emails the mediator caused to be sent. -/
def UserRepository.save (users : List (String × User)) (user : User) :
    List (String × User) × List EmailMsg :=
  (mapSet users user.email user, UserMediator.notify user "UserCreated")

/-- Source `UserRepository.deleteByEmail` (mediator file): `get` the
user; only if one is stored, `delete` the entry and notify the mediator
with "UserDeleted". Returns the new map state and the emails the
mediator caused to be sent. -/
def UserRepository.deleteByEmail (users : List (String × User)) (email : String) :
    List (String × User) × List EmailMsg :=
  match mapGet users email with
  | none => (users, [])
  | some user => (mapDelete users email, UserMediator.notify user "UserDeleted")

end Mediator

/-
Concrete scenario instances used by counterexamples and witnesses.
Dispatchers with state type `Unit` and error type `String` play the role
of a command bus whose handlers succeed or throw fixed errors.
-/

/-- Dispatcher for the first scenario: the forward command "E1" fails,
everything else succeeds. -/
def exC1 : Unit → Command → Unit × Except String Unit := fun _ c =>
  ((), if c.type = "E1" then Except.error "boom" else Except.ok ())

/-- Two-step saga: step 0 = ("E0", compensate "C0"), step 1 = ("E1", no
compensate). -/
def sagaC1 : UserCreationSaga :=
  ⟨[⟨⟨"E0", []⟩, some ⟨"C0", []⟩⟩, ⟨⟨"E1", []⟩, none⟩]⟩

/-- Dispatcher where forward "E2" fails and compensation "C1" also fails. -/
def exC2 : Unit → Command → Unit × Except String Unit := fun _ c =>
  ((), if c.type = "E2" then Except.error "fwd"
       else if c.type = "C1" then Except.error "compfail" else Except.ok ())

/-- Three-step saga: ("E0", comp "C0"), ("E1", comp "C1"), ("E2", no comp). -/
def sagaC2 : UserCreationSaga :=
  ⟨[⟨⟨"E0", []⟩, some ⟨"C0", []⟩⟩, ⟨⟨"E1", []⟩, some ⟨"C1", []⟩⟩, ⟨⟨"E2", []⟩, none⟩]⟩

/-- Dispatcher where forward "E2" fails and compensation "C1" also fails
(separate copy for the reverse-order claim). -/
def exC3 : Unit → Command → Unit × Except String Unit := fun _ c =>
  ((), if c.type = "E2" then Except.error "ffailfwd"
       else if c.type = "C1" then Except.error "failcomp" else Except.ok ())

/-- Three-step saga, copy for the reverse-order claim. -/
def sagaC3 : UserCreationSaga :=
  ⟨[⟨⟨"E0", []⟩, some ⟨"C0", []⟩⟩, ⟨⟨"E1", []⟩, some ⟨"C1", []⟩⟩, ⟨⟨"E2", []⟩, none⟩]⟩

/-- Dispatcher where only forward "E1" fails, compensations succeed. -/
def exC3w : Unit → Command → Unit × Except String Unit := fun _ c =>
  ((), if c.type = "E1" then Except.error "boom" else Except.ok ())

/-- Dispatcher where every dispatch succeeds. -/
def exOk4 : Unit → Command → Unit × Except String Unit := fun _ _ => ((), Except.ok ())

/-- Two-step saga for the all-success scenario. -/
def sagaC4 : UserCreationSaga :=
  ⟨[⟨⟨"E0", []⟩, some ⟨"C0", []⟩⟩, ⟨⟨"E1", []⟩, none⟩]⟩

/-- Handler that throws an error whose message happens to read exactly
like the message `CommandBus.execute` throws when no handler is
registered for "CREATE_USER". -/
def hBoomMsg : Handler Unit := fun s _ =>
  (s, Except.error (JSValue.errObj "No handler registered for CREATE_USER"))

/-- Bus with `hBoomMsg` registered for "CREATE_USER". -/
def busReg5 : CommandBus Unit := [("CREATE_USER", hBoomMsg)]

/-- Bus with no handler registered at all. -/
def busEmpty5 : CommandBus Unit := []

/-- Concrete CreateUser action. -/
def act5 : Command := ⟨"CREATE_USER", ["John Doe", "john@example.com"]⟩

/-- Handler that throws a plain "boom" error. -/
def hBoom5 : Handler Unit := fun s _ => (s, Except.error (JSValue.errObj "boom"))

/-- Bus registering the boom handler under "CREATE_USER". -/
def busKindA : CommandBus Unit := [("CREATE_USER", hBoom5)]

/-- Bus registering the boom handler under "ROLLBACK_USER_CREATION". -/
def busKindB : CommandBus Unit := [("ROLLBACK_USER_CREATION", hBoom5)]

/-- Concrete RollbackUserCreation action. -/
def actB5 : Command := ⟨"ROLLBACK_USER_CREATION", ["user123"]⟩

/-- Handler that succeeds, bumping a counter state. -/
def hOk5 : Handler Nat := fun s _ => (s + 1, Except.ok ())

/-- Bus with the succeeding handler registered for "CREATE_USER". -/
def busW5 : CommandBus Nat := [("CREATE_USER", hOk5)]

/-- First registered handler for the last-registration-wins witness. -/
def h1W6 : Handler Nat := fun s _ => (s + 7, Except.error (JSValue.errObj "old"))

/-- Second registered handler for the last-registration-wins witness. -/
def h2W6 : Handler Nat := fun s _ => (s + 1, Except.ok ())

/-- Concrete action with the overwritten kind. -/
def actW6 : Command := ⟨"CREATE_USER", []⟩

/-- Dispatcher where every dispatch succeeds (addStep scenario). -/
def exC7 : Unit → Command → Unit × Except String Unit := fun _ _ => ((), Except.ok ())

/-- One-step saga for the addStep-after-run scenario. -/
def sagaC7 : UserCreationSaga := ⟨[⟨⟨"E0", []⟩, none⟩]⟩

/-- Concrete mediator user map holding exactly one user. -/
def usersC9 : List (String × User) := [("a@x", ⟨"A", "a@x"⟩)]

end Patterns

/-
Helper lemmas about the two loops of `UserCreationSaga.run` and the
JavaScript map operations.
-/

namespace Patterns

/-- When the forward loop finishes without a dispatch failure, every
step was executed in order: `executedSteps` is the whole step list and
the dispatch trace is exactly the forward commands in insertion order. -/
theorem forwardLoop_err_none {σ ε : Type} (exec : σ → Command → σ × Except ε Unit)
    (l : List Step) : ∀ s : σ, (forwardLoop exec l s).err = none →
    (forwardLoop exec l s).executed = l ∧
    (forwardLoop exec l s).trace = l.map Step.execute := by
  induction l with
  | nil => intro s _; exact ⟨rfl, rfl⟩
  | cons step rest ih =>
      intro s h
      cases hex : exec s step.execute with
      | mk s1 r =>
          cases r with
          | ok u =>
              have h1 : (forwardLoop exec rest s1).err = none := by
                simpa [forwardLoop, hex] using h
              have h2 := ih s1 h1
              simp [forwardLoop, hex, h2.1, h2.2]
          | error e => simp [forwardLoop, hex] at h

/-- Splitting the forward loop at a prefix that fully succeeds. -/
theorem forwardLoop_append {σ ε : Type} (exec : σ → Command → σ × Except ε Unit)
    (l1 l2 : List Step) : ∀ s : σ, (forwardLoop exec l1 s).err = none →
    forwardLoop exec (l1 ++ l2) s =
      ⟨(forwardLoop exec l2 (forwardLoop exec l1 s).state).state,
       (forwardLoop exec l1 s).trace ++ (forwardLoop exec l2 (forwardLoop exec l1 s).state).trace,
       (forwardLoop exec l1 s).executed ++ (forwardLoop exec l2 (forwardLoop exec l1 s).state).executed,
       (forwardLoop exec l2 (forwardLoop exec l1 s).state).err⟩ := by
  induction l1 with
  | nil => intro s _; simp [forwardLoop]
  | cons step rest ih =>
      intro s h
      cases hex : exec s step.execute with
      | mk s1 r =>
          cases r with
          | ok u =>
              have h1 : (forwardLoop exec rest s1).err = none := by
                simpa [forwardLoop, hex] using h
              simp [forwardLoop, hex, ih s1 h1]
          | error e => simp [forwardLoop, hex] at h

/-- When the compensation loop finishes without a dispatch failure, the
commands it dispatched are exactly the present compensate actions of its
input list, in list order. -/
theorem compLoop_err_none {σ ε : Type} (exec : σ → Command → σ × Except ε Unit)
    (l : List Step) : ∀ s : σ, (compLoop exec l s).err = none →
    (compLoop exec l s).trace = l.filterMap Step.compensate := by
  induction l with
  | nil => intro s _; rfl
  | cons step rest ih =>
      intro s h
      cases hc : step.compensate with
      | none =>
          have h1 : (compLoop exec rest s).err = none := by
            simpa [compLoop, hc] using h
          simp [compLoop, hc, ih s h1]
      | some c =>
          cases hex : exec s c with
          | mk s1 r =>
              cases r with
              | ok u =>
                  have h1 : (compLoop exec rest s1).err = none := by
                    simpa [compLoop, hc, hex] using h
                  simp [compLoop, hc, hex, ih s1 h1]
              | error e => simp [compLoop, hc, hex] at h

/-- Splitting the compensation loop at a prefix that fully succeeds. -/
theorem compLoop_append {σ ε : Type} (exec : σ → Command → σ × Except ε Unit)
    (l1 l2 : List Step) : ∀ s : σ, (compLoop exec l1 s).err = none →
    compLoop exec (l1 ++ l2) s =
      ⟨(compLoop exec l2 (compLoop exec l1 s).state).state,
       (compLoop exec l1 s).trace ++ (compLoop exec l2 (compLoop exec l1 s).state).trace,
       (compLoop exec l2 (compLoop exec l1 s).state).err⟩ := by
  induction l1 with
  | nil => intro s _; simp [compLoop]
  | cons step rest ih =>
      intro s h
      cases hc : step.compensate with
      | none =>
          have h1 : (compLoop exec rest s).err = none := by
            simpa [compLoop, hc] using h
          simp [compLoop, hc, ih s h1]
      | some c =>
          cases hex : exec s c with
          | mk s1 r =>
              cases r with
              | ok u =>
                  have h1 : (compLoop exec rest s1).err = none := by
                    simpa [compLoop, hc, hex] using h
                  simp [compLoop, hc, hex, ih s1 h1]
              | error e => simp [compLoop, hc, hex] at h

/-- When the compensation dispatch of step `st` fails after a fully
successful earlier portion `l1` of the walk, the loop stops at `st`: its
trace ends with `st`'s compensate command and nothing of `l2` is
dispatched. -/
theorem compLoop_fail_at {σ ε : Type} (exec : σ → Command → σ × Except ε Unit)
    (l1 : List Step) (st : Step) (l2 : List Step) (s : σ) (c : Command) (e : ε)
    (hok : (compLoop exec l1 s).err = none)
    (hc : st.compensate = some c)
    (hfail : (exec (compLoop exec l1 s).state c).2 = Except.error e) :
    compLoop exec (l1 ++ st :: l2) s =
      ⟨(exec (compLoop exec l1 s).state c).1, (compLoop exec l1 s).trace ++ [c], some e⟩ := by
  rcases hq : exec (compLoop exec l1 s).state c with ⟨s2, r⟩
  rw [hq] at hfail
  simp only at hfail
  subst hfail
  rw [compLoop_append exec l1 (st :: l2) s hok]
  simp [compLoop, hc, hq]

/-- Setting the same key twice keeps only the second value: the
JavaScript `Map.set` overwrites in place. -/
theorem mapSet_mapSet {α : Type} (m : List (String × α)) (k : String) (v1 v2 : α) :
    mapSet (mapSet m k v1) k v2 = mapSet m k v2 := by
  induction m with
  | nil => simp [mapSet]
  | cons p rest ih =>
      obtain ⟨k1, w⟩ := p
      by_cases hk : k1 = k
      · simp [mapSet, hk]
      · simp [mapSet, hk, ih]

/-- Lookup after `Map.set` at the written key yields the written value. -/
theorem mapGet_mapSet_self {α : Type} (m : List (String × α)) (k : String) (v : α) :
    mapGet (mapSet m k v) k = some v := by
  induction m with
  | nil => simp [mapSet, mapGet]
  | cons p rest ih =>
      obtain ⟨k1, w⟩ := p
      by_cases hk : k1 = k
      · simp [mapSet, mapGet, hk]
      · simp [mapSet, mapGet, hk, ih]

end Patterns

/-
Claim theorems. Each theorem is annotated with the claim it settles.
-/

namespace Patterns

/-- Claim C1, counterexample. The claim says that after a forward-step
failure `run` completes the compensation walk and returns a structured
failure (causing step index, causing error, compensation failures), and
never returns success. In the source, `run` returns `Promise<void>`,
catches the forward error, only logs it, and resolves normally once the
walk finishes. Concretely: in `sagaC1` under `exC1` the forward dispatch
of step 1 fails with "boom", the compensation "C0" is dispatched, and
`run` nevertheless resolves with the success value, carrying no step
index, no causing error and no compensation outcome. -/
theorem run_resolves_after_forward_failure_cex :
    (forwardLoop exC1 sagaC1.steps ()).err = some "boom" ∧
    (sagaC1.run exC1 ()).2.result = Except.ok () ∧
    (sagaC1.run exC1 ()).2.trace = [⟨"E0", []⟩, ⟨"E1", []⟩, ⟨"C0", []⟩] :=
  ⟨rfl, rfl, rfl⟩

/-- Claim C1, amended. When some forward dispatch fails, `run` enters
the compensation walk, and its returned outcome is determined solely by
that walk: it resolves with the success value when the walk raises no
error (the forward error and step index are dropped, observable only in
a log), and rejects with the raw error of the first failing compensation
otherwise. The full dispatch trace is the forward trace followed by the
walk's trace. -/
theorem run_outcome_after_forward_failure {σ ε : Type}
    (exec : σ → Command → σ × Except ε Unit) (saga : UserCreationSaga) (s : σ) (e : ε)
    (hfail : (forwardLoop exec saga.steps s).err = some e) :
    (saga.run exec s).2.trace
      = (forwardLoop exec saga.steps s).trace
        ++ (compLoop exec (forwardLoop exec saga.steps s).executed.reverse
              (forwardLoop exec saga.steps s).state).trace ∧
    (saga.run exec s).2.result
      = ((compLoop exec (forwardLoop exec saga.steps s).executed.reverse
            (forwardLoop exec saga.steps s).state).err).elim (Except.ok ()) Except.error := by
  cases hce : (compLoop exec (forwardLoop exec saga.steps s).executed.reverse
      (forwardLoop exec saga.steps s).state).err with
  | none => constructor <;> simp [UserCreationSaga.run, runSteps, hfail, hce]
  | some ce => constructor <;> simp [UserCreationSaga.run, runSteps, hfail, hce]

/-- Claim C1, witness for the amended theorem at the `sagaC1` scenario. -/
theorem run_outcome_after_forward_failure_witness :
    (sagaC1.run exC1 ()).2.result = Except.ok () :=
  (run_outcome_after_forward_failure exC1 sagaC1 () "boom" rfl).2.trans rfl

/-- Claim C2, counterexample. The claim says a compensation failure never
aborts the remaining compensation walk. In `sagaC2` under `exC2` the
forward dispatch of step 2 ("E2") fails, the walk starts with step 1's
compensation "C1", which fails — and step 0's compensation "C0" is never
dispatched: the thrown compensation error escapes `run` (the loop inside
the catch block has no try/catch of its own). -/
theorem comp_failure_short_circuits_cex :
    (sagaC2.run exC2 ()).2.trace
      = [⟨"E0", []⟩, ⟨"E1", []⟩, ⟨"E2", []⟩, ⟨"C1", []⟩] ∧
    (⟨"C0", []⟩ : Command) ∉ (sagaC2.run exC2 ()).2.trace ∧
    (sagaC2.run exC2 ()).2.result = Except.error "compfail" :=
  ⟨rfl, by decide, rfl⟩

/-- Claim C2, amended. If during the compensation walk the portion `l1`
of the reversed executed steps compensates cleanly and then step `st`'s
compensation dispatch fails, the walk stops at `st`: the compensations of
all remaining completed steps (`l2`, i.e. steps j-1, ..., 0) are NOT
attempted, and `run` rejects with the compensation error. -/
theorem comp_failure_aborts_walk {σ ε : Type} (exec : σ → Command → σ × Except ε Unit)
    (saga : UserCreationSaga) (s : σ) (e0 e : ε)
    (l1 : List Step) (st : Step) (l2 : List Step) (c : Command)
    (hfwd : (forwardLoop exec saga.steps s).err = some e0)
    (hdec : (forwardLoop exec saga.steps s).executed.reverse = l1 ++ st :: l2)
    (hok : (compLoop exec l1 (forwardLoop exec saga.steps s).state).err = none)
    (hc : st.compensate = some c)
    (hfail : (exec (compLoop exec l1 (forwardLoop exec saga.steps s).state).state c).2
      = Except.error e) :
    (saga.run exec s).2.trace
      = (forwardLoop exec saga.steps s).trace
        ++ ((compLoop exec l1 (forwardLoop exec saga.steps s).state).trace ++ [c]) ∧
    (saga.run exec s).2.result = Except.error e := by
  have hcl := compLoop_fail_at exec l1 st l2 (forwardLoop exec saga.steps s).state c e hok hc hfail
  constructor
  · simp [UserCreationSaga.run, runSteps, hfwd, hdec, hcl]
  · simp [UserCreationSaga.run, runSteps, hfwd, hdec, hcl]

/-- Claim C2, witness for the amended theorem at the `sagaC2` scenario. -/
theorem comp_failure_aborts_walk_witness :
    (sagaC2.run exC2 ()).2.result = Except.error "compfail" :=
  (comp_failure_aborts_walk exC2 sagaC2 () "fwd" "compfail" []
    ⟨⟨"E1", []⟩, some ⟨"C1", []⟩⟩ [⟨⟨"E0", []⟩, some ⟨"C0", []⟩⟩] ⟨"C1", []⟩
    rfl rfl rfl rfl rfl).2

/-- Claim C3, counterexample. The claim says that when step k is the
first forward failure, the compensation dispatches issued are exactly
s(k-1).compensate, ..., s0.compensate. In `sagaC3` under `exC3`, step 2
fails, so the claim requires compensation dispatches "C1" then "C0"; but
"C1" itself fails, the walk aborts, and "C0" is never issued. -/
theorem reverse_comp_truncated_cex :
    (sagaC3.run exC3 ()).2.trace
      = [⟨"E0", []⟩, ⟨"E1", []⟩, ⟨"E2", []⟩, ⟨"C1", []⟩] ∧
    (⟨"C0", []⟩ : Command) ∉ (sagaC3.run exC3 ()).2.trace :=
  ⟨rfl, by decide⟩

/-- Claim C3, amended. If the forward actions of `pre` all succeed, the
forward action of `sk` is the first to fail, and every compensation
dispatch issued during the walk succeeds, then the complete dispatch
trace of `run` is: the forward commands of `pre` in insertion order, the
failing forward command of `sk`, and then exactly the compensate actions
of the executed steps in reverse insertion order, skipping steps with no
compensate action. In particular `sk` itself and the steps after it are
never compensated, and nothing of `post` is dispatched. (When a
compensation dispatch fails, the issued compensations are instead a
prefix of this sequence, cut at the first failing one.) -/
theorem reverse_comp_order {σ ε : Type} (exec : σ → Command → σ × Except ε Unit)
    (pre : List Step) (sk : Step) (post : List Step) (s : σ) (e : ε)
    (hpre : (forwardLoop exec pre s).err = none)
    (hfail : (exec (forwardLoop exec pre s).state sk.execute).2 = Except.error e)
    (hcomp : (compLoop exec pre.reverse
        (exec (forwardLoop exec pre s).state sk.execute).1).err = none) :
    ((UserCreationSaga.mk (pre ++ sk :: post)).run exec s).2.trace
      = pre.map Step.execute ++ [sk.execute] ++ pre.reverse.filterMap Step.compensate := by
  have hp := forwardLoop_err_none exec pre s hpre
  have happ := forwardLoop_append exec pre (sk :: post) s hpre
  rcases hq : exec (forwardLoop exec pre s).state sk.execute with ⟨s2, r⟩
  rw [hq] at hfail
  simp only at hfail
  subst hfail
  rw [hq] at hcomp
  simp only at hcomp
  have hsk : forwardLoop exec (sk :: post) (forwardLoop exec pre s).state
      = ⟨s2, [sk.execute], [], some e⟩ := by
    simp [forwardLoop, hq]
  have hct := compLoop_err_none exec pre.reverse s2 hcomp
  simp [UserCreationSaga.run, runSteps, happ, hsk, hp.1, hp.2, hct, hcomp]

/-- Claim C3, witness: one step with compensation, then a failing step
with no compensation; the trace is forward "E0", failing "E1", then the
single reverse compensation "C0". -/
theorem reverse_comp_order_witness :
    ((UserCreationSaga.mk [⟨⟨"E0", []⟩, some ⟨"C0", []⟩⟩, ⟨⟨"E1", []⟩, none⟩]).run
        exC3w ()).2.trace
      = [⟨"E0", []⟩, ⟨"E1", []⟩, ⟨"C0", []⟩] :=
  reverse_comp_order exC3w [⟨⟨"E0", []⟩, some ⟨"C0", []⟩⟩] ⟨⟨"E1", []⟩, none⟩ [] ()
    "boom" rfl rfl rfl

/-- Claim C4. If every forward dispatch succeeds, the complete dispatch
trace of `run` is exactly the forward commands in insertion order — no
reordering, no skipping, and no compensate action is ever dispatched —
and `run` resolves successfully. The empty saga definition is the
instance with `steps = []`: zero dispatch calls. -/
theorem run_all_forward_ok {σ ε : Type} (exec : σ → Command → σ × Except ε Unit)
    (saga : UserCreationSaga) (s : σ)
    (h : (forwardLoop exec saga.steps s).err = none) :
    (saga.run exec s).2.trace = saga.steps.map Step.execute ∧
    (saga.run exec s).2.result = Except.ok () := by
  have h2 := forwardLoop_err_none exec saga.steps s h
  constructor
  · simp [UserCreationSaga.run, runSteps, h, h2.2]
  · simp [UserCreationSaga.run, runSteps, h]

/-- Claim C4, witness: the empty saga runs with zero dispatches, and a
two-step saga under an all-success dispatcher dispatches exactly its two
forward commands in order. -/
theorem run_all_forward_ok_witness :
    ((UserCreationSaga.mk []).run exOk4 ()).2.trace = [] ∧
    ((UserCreationSaga.mk []).run exOk4 ()).2.result = Except.ok () ∧
    (sagaC4.run exOk4 ()).2.trace = [⟨"E0", []⟩, ⟨"E1", []⟩] ∧
    (sagaC4.run exOk4 ()).2.result = Except.ok () :=
  ⟨(run_all_forward_ok exOk4 ⟨[]⟩ () rfl).1, (run_all_forward_ok exOk4 ⟨[]⟩ () rfl).2,
   (run_all_forward_ok exOk4 sagaC4 () rfl).1, (run_all_forward_ok exOk4 sagaC4 () rfl).2⟩

/-- Claim C5, counterexample. The claim says a raising handler's failure
is surfaced wrapped as HandlerFailed(kind, cause), distinct from the
NoHandlerRegistered(kind) failure. In the source `execute` rethrows the
handler's failure unchanged, so the failure carries no kind and no
wrapper: a handler registered for "CREATE_USER" that throws an error
whose message reads like the missing-handler message produces a result
byte-identical to the no-handler case (third conjunct), and the same
thrown cause under two different kinds produces identical failures
(fourth conjunct), which equal the raw cause itself (fifth conjunct).
No assignment of these outcomes to the claim's two distinct structured
error forms is possible. -/
theorem execute_error_indistinguishable_cex :
    mapGet busReg5 act5.type = some hBoomMsg ∧
    mapGet busEmpty5 act5.type = none ∧
    CommandBus.execute busReg5 () act5 = CommandBus.execute busEmpty5 () act5 ∧
    CommandBus.execute busKindA () act5 = CommandBus.execute busKindB () actB5 ∧
    (CommandBus.execute busKindA () act5).2 = Except.error (JSValue.errObj "boom") :=
  ⟨rfl, rfl, rfl, rfl, rfl⟩

/-- Claim C5, amended. If no handler is registered for the action's
kind, `execute` fails with an error whose message names that kind; if a
handler is registered, `execute` is exactly one invocation of that
handler — it succeeds precisely when the handler completes without
raising and otherwise fails with the handler's failure propagated as-is
(not wrapped, not carrying the kind), with no retry and no effect beyond
the single handler call. -/
theorem execute_contract {σ : Type} (bus : CommandBus σ) (s : σ) (a : Command) :
    (mapGet bus a.type = none →
      CommandBus.execute bus s a
        = (s, Except.error (JSValue.errObj ("No handler registered for " ++ a.type)))) ∧
    (∀ h, mapGet bus a.type = some h → CommandBus.execute bus s a = h s a) := by
  constructor
  · intro hget; simp [CommandBus.execute, hget]
  · intro h hget; simp [CommandBus.execute, hget]

/-- Claim C5, witness: the empty bus fails with the kind-naming message;
a bus with a succeeding handler defers to exactly that handler call. -/
theorem execute_contract_witness :
    CommandBus.execute busEmpty5 () act5
      = ((), Except.error (JSValue.errObj ("No handler registered for " ++ act5.type))) ∧
    CommandBus.execute busW5 0 act5 = hOk5 0 act5 :=
  ⟨(execute_contract busEmpty5 () act5).1 rfl,
   (execute_contract busW5 0 act5).2 hOk5 rfl⟩

/-- Claim C6. Registering h1 then h2 for the same kind leaves the
registry in exactly the state produced by registering only h2 (last
registration wins, at most one handler per kind), and a subsequent
`execute` for an action of that kind invokes h2. -/
theorem register_last_wins {σ : Type} (bus : CommandBus σ) (k : String) (h1 h2 : Handler σ) :
    CommandBus.register (CommandBus.register bus k h1) k h2 = CommandBus.register bus k h2 ∧
    (∀ (s : σ) (a : Command), a.type = k →
      CommandBus.execute (CommandBus.register (CommandBus.register bus k h1) k h2) s a
        = h2 s a) := by
  constructor
  · exact mapSet_mapSet bus k h1 h2
  · intro s a ha
    simp [CommandBus.execute, CommandBus.register, ha, mapGet_mapSet_self]

/-- Claim C6, witness: on the empty bus, after registering h1W6 then
h2W6 for "CREATE_USER", execute invokes h2W6. -/
theorem register_last_wins_witness :
    CommandBus.execute
        (CommandBus.register (CommandBus.register [] "CREATE_USER" h1W6) "CREATE_USER" h2W6)
        0 actW6
      = h2W6 0 actW6 :=
  (register_last_wins [] "CREATE_USER" h1W6 h2W6).2 0 actW6 rfl

/-- Claim C7, counterexample. The claim says calling addStep after
execution has started fails fast rather than appending. In the source,
`addStep` is an unguarded `push`: here execution of `sagaC7` has started
(and finished — its forward command was dispatched, first conjunct), and
`addStep` on the saga object afterwards appends the new step to the step
sequence instead of failing (second conjunct). -/
theorem addStep_after_run_appends_cex :
    (sagaC7.run exC7 ()).2.trace = [⟨"E0", []⟩] ∧
    ((sagaC7.run exC7 ()).1.addStep ⟨"E1", []⟩ none).steps
      = sagaC7.steps ++ [⟨⟨"E1", []⟩, none⟩] :=
  ⟨rfl, rfl⟩

/-- Claim C7, amended. `addStep` appends the step to the ordered step
sequence unconditionally — the implementation has no started-execution
guard and no failure path, so calling it after execution has started
still appends rather than failing fast. -/
theorem addStep_always_appends (saga : UserCreationSaga) (e : Command) (c : Option Command) :
    (saga.addStep e c).steps = saga.steps ++ [⟨e, c⟩] := rfl

/-- Claim C8. `run` does not mutate the saga definition: for every
dispatcher, state and saga, the saga object after `run` is the one
passed in — same step sequence (length, order, and each step's forward
and compensate actions). The method builds its `executedSteps` record
locally and applies the in-place `reverse()` to that local array only;
it never writes `this.steps`, which the embedding reflects by returning
the object state untouched through both the success and the compensated
failure paths. -/
theorem run_preserves_definition {σ ε : Type} (exec : σ → Command → σ × Except ε Unit)
    (saga : UserCreationSaga) (s : σ) :
    (saga.run exec s).1 = saga ∧ (saga.run exec s).1.steps = saga.steps :=
  ⟨rfl, rfl⟩

/-- Claim C9. On the mediator-pattern repository, `deleteByEmail` for an
email absent from the user map is a no-op: the map is unchanged and no
mediator notification — hence no account-closure email — occurs. When a
user is stored under the email, the entry is removed and exactly the
UserDeleted handling runs, sending one account-closure email to the
stored user's address: the notification is issued only when a stored
user was actually removed. -/
theorem deleteByEmail_contract (users : List (String × User)) (email : String) :
    (mapGet users email = none →
      Mediator.UserRepository.deleteByEmail users email = (users, [])) ∧
    (∀ u, mapGet users email = some u →
      Mediator.UserRepository.deleteByEmail users email
        = (mapDelete users email, [Mediator.EmailMsg.accountClosure u.email])) := by
  constructor
  · intro h; simp [Mediator.UserRepository.deleteByEmail, h]
  · intro u h
    simp [Mediator.UserRepository.deleteByEmail, h, Mediator.UserMediator.notify]

/-- Claim C9, witness: deleting a missing email leaves the one-user map
untouched with no email sent; deleting the stored email removes the
entry and sends one account-closure email. -/
theorem deleteByEmail_contract_witness :
    Mediator.UserRepository.deleteByEmail usersC9 "b@x" = (usersC9, []) ∧
    Mediator.UserRepository.deleteByEmail usersC9 "a@x"
      = (mapDelete usersC9 "a@x", [Mediator.EmailMsg.accountClosure "a@x"]) :=
  ⟨(deleteByEmail_contract usersC9 "b@x").1 rfl,
   (deleteByEmail_contract usersC9 "a@x").2 ⟨"A", "a@x"⟩ rfl⟩

/-- Claim C10. In the command/query-bus slice, `save` appends
unconditionally (so saving twice stores two copies — duplicate emails
coexist), and `findByEmail` returns the head of the saved-order filter:
the earliest-saved user with the given email, or `none` (null, not an
error) when no saved user has that email. -/
theorem cqrs_repo_contract (users : List User) (user : User) (email : String) :
    Cqrs.InMemoryUserRepository.save users user = users ++ [user] ∧
    Cqrs.InMemoryUserRepository.save (Cqrs.InMemoryUserRepository.save users user) user
      = users ++ [user, user] ∧
    Cqrs.InMemoryUserRepository.findByEmail users email
      = (users.filter (fun u => u.email = email)).head? := by
  refine ⟨rfl, by simp [Cqrs.InMemoryUserRepository.save], ?_⟩
  simp only [Cqrs.InMemoryUserRepository.findByEmail]
  induction users with
  | nil => rfl
  | cons u rest ih =>
      rw [List.find?_cons, List.filter_cons]
      by_cases h : u.email = email
      · simp only [decide_eq_true h]
        simp
      · simp only [decide_eq_false h, ih]
        simp

end Patterns
